import Mathlib

/-!
Shallow embedding of `src/schnetpack/sacred/dataset_ingredients.py`:
the property-map resolver `get_property_map` and the dataset dispatcher
`get_dataset`, together with the Python string/dict primitives they rely on
(`str.split`, dict lookup/insert, `os.path.splitext`, `str.upper`).
-/

namespace DatasetIngredients

/-- Python `s.split(sep)` for a one-character separator `c`, on the list of
characters of `s`.  Like Python, splitting never yields the empty list:
`"".split(',') == ['']` and separators at the ends yield empty pieces. -/
def splitOnChar (c : Char) : List Char → List (List Char)
  | [] => [[]]
  | x :: xs =>
    if x = c then
      [] :: splitOnChar c xs
    else
      match splitOnChar c xs with
      | [] => [[x]]
      | y :: ys => (x :: y) :: ys

/-- Python dict membership test / item access combined: first-match lookup in
an association list (`prop in d.keys()` and `d[prop]`). -/
def dictLookup : List (String × String) → String → Option String
  | [], _ => none
  | (a, b) :: rest, key => if a = key then some b else dictLookup rest key

/-- Python dict item assignment `d[k] = v`: overwrite the value in place when
the key is present, append the new pair otherwise. -/
def dictInsert : List (String × String) → String → String → List (String × String)
  | [], k, v => [(k, v)]
  | (a, b) :: rest, k, v =>
    if a = k then (a, v) :: rest else (a, b) :: dictInsert rest k v

/-- Errors raised by `get_property_map`: the generic `ValueError` from tuple
unpacking in the dict comprehension, and the domain-specific
`AtomsDataError` with its message. -/
inductive PMError
  | valueError
  | atomsDataError (msg : String)
  deriving DecidableEq

/-- The `AtomsDataError` message built by
`'"{}" is not a valid property that is contained in the property_mapping for
the database located ad {}.'.format(prop, dbpath)`. -/
def missingPropertyMessage (prop dbpath : String) : String :=
  "\"" ++ prop ++ "\" is not a valid property that is contained in the property_mapping for the database located ad " ++ dbpath ++ "."

/-- The dict comprehension
`{key: value for key, value in [prop.split(':') for prop in s.split(',')]}`:
each comma-separated entry is split on every colon and unpacked into exactly
two components; any other number of components raises `ValueError`. -/
def parseEntries : List (List Char) → List (String × String) →
    Except PMError (List (String × String))
  | [], acc => .ok acc
  | e :: es, acc =>
    match splitOnChar ':' e with
    | [k, v] => parseEntries es (dictInsert acc (String.mk k) (String.mk v))
    | _ => .error .valueError

/-- Parsing a string-form property mapping into a dict. -/
def parseMapping (s : String) : Except PMError (List (String × String)) :=
  parseEntries (splitOnChar ',' s.data) []

/-- The `property_mapping` argument: either a string (parsed) or a dict
(`type(property_mapping) == str` test in the source). -/
inductive PropertyMapping
  | str (s : String)
  | dict (m : List (String × String))

/-- The loop of `get_property_map`: for each requested property, copy its
mapping into `property_map` if present, else raise `AtomsDataError`. -/
def buildPropertyMap (dbpath : String) : List String → List (String × String) →
    List (String × String) → Except PMError (List (String × String))
  | [], _, acc => .ok acc
  | p :: ps, pm, acc =>
    match dictLookup pm p with
    | some v => buildPropertyMap dbpath ps pm (dictInsert acc p v)
    | none => .error (.atomsDataError (missingPropertyMessage p dbpath))

/-- `get_property_map(properties, property_mapping, dbpath)`. -/
def getPropertyMap (properties : List String) (property_mapping : PropertyMapping)
    (dbpath : String) : Except PMError (List (String × String)) :=
  match property_mapping with
  | .str s =>
    match parseMapping s with
    | .ok pm => buildPropertyMap dbpath properties pm []
    | .error e => .error e
  | .dict pm => buildPropertyMap dbpath properties pm []

example : getPropertyMap ["energy"] (.dict [("energy", "E")]) "p.db" =
    .ok [("energy", "E")] := rfl

example : getPropertyMap ["energy", "forces"] (.str "energy:E,forces:F") "p.db" =
    .ok [("energy", "E"), ("forces", "F")] := rfl

example : getPropertyMap ["energy"] (.str "energy:col:0") "p.db" =
    .error .valueError := rfl

example : getPropertyMap ["forces"] (.dict [("energy", "E")]) "p.db" =
    .error (.atomsDataError (missingPropertyMessage "forces" "p.db")) := rfl

/-- The ASCII lower/upper case letter pairs. -/
def upperPairs : List (Char × Char) :=
  [('a', 'A'), ('b', 'B'), ('c', 'C'), ('d', 'D'), ('e', 'E'), ('f', 'F'),
   ('g', 'G'), ('h', 'H'), ('i', 'I'), ('j', 'J'), ('k', 'K'), ('l', 'L'),
   ('m', 'M'), ('n', 'N'), ('o', 'O'), ('p', 'P'), ('q', 'Q'), ('r', 'R'),
   ('s', 'S'), ('t', 'T'), ('u', 'U'), ('v', 'V'), ('w', 'W'), ('x', 'X'),
   ('y', 'Y'), ('z', 'Z')]

/-- Python `str.upper` on one character, modelled on the ASCII letters (the
tags compared against are ASCII); other characters are left unchanged. -/
def pyUpperChar (c : Char) : Char :=
  match upperPairs.find? (fun p => p.1 == c) with
  | some p => p.2
  | none => c

/-- Python `str.lower` on one character, ASCII letters only. -/
def pyLowerChar (c : Char) : Char :=
  match upperPairs.find? (fun p => p.2 == c) with
  | some p => p.1
  | none => c

/-- Python `str.upper`, ASCII letters only. -/
def pyUpper (s : String) : String := String.mk (s.data.map pyUpperChar)

/-- Python `str.lower`, ASCII letters only. -/
def pyLower (s : String) : String := String.mk (s.data.map pyLowerChar)

/-- Python `s.rfind(c)` restricted to its successful/none outcome: the index
of the last occurrence of `c`, or `none` when absent (`-1` in Python). -/
def rfindChar (c : Char) : List Char → Option Nat
  | [] => none
  | x :: xs =>
    match rfindChar c xs with
    | some i => some (i + 1)
    | none => if x = c then some 0 else none

/-- `os.path.splitext` (POSIX rules): split at the last `.` that lies after
the last `/` and after at least one non-`.` character of the base name, so
that names made only of leading dots (`.bashrc`) keep no extension. -/
def splitext (p : String) : String × String :=
  match rfindChar '.' p.data with
  | none => (p, "")
  | some d =>
    let start :=
      match rfindChar '/' p.data with
      | none => 0
      | some s => s + 1
    if start ≤ d ∧ ¬ ((p.data.drop start).take (d - start)).all (fun x => x == '.')
    then (String.mk (p.data.take d), String.mk (p.data.drop d))
    else (p, "")

example : splitext "foo.xyz" = ("foo", ".xyz") := rfl
example : splitext "foo.db" = ("foo", ".db") := rfl
example : splitext ".bashrc" = (".bashrc", "") := rfl
example : splitext "..x.y" = ("..x", ".y") := rfl
example : splitext "a.b/c" = ("a.b/c", "") := rfl
example : splitext "a/b.c" = ("a/b", ".c") := rfl
example : splitext "" = ("", "") := rfl
example : splitext "foo." = ("foo", ".") := rfl

/-- The dataset objects the dispatcher can construct, recording exactly the
constructor arguments the source passes.  `cutoff` is a float in the source;
it is passed through unchanged, so it is modelled as an opaque token. -/
inductive Dataset
  | qm9 (dbpath : String) (properties : Option (List String))
  | iso17 (dbpath : String) (fold : String) (properties : Option (List String))
  | ani1 (dbpath : String) (numHeavyAtoms : Nat) (properties : Option (List String))
  | md17 (dbpath : String) (molecule : String) (properties : Option (List String))
  | materialsProject (dbpath : String) (cutoff : String) (apiKey : String)
      (properties : Option (List String))
  | atomsData (dbpath : String) (requiredProperties : Option (List String))
  deriving DecidableEq

/-- The only failure `get_dataset` raises itself. -/
inductive DatasetError
  | notImplementedError
  deriving DecidableEq

/-- The kind-specific configuration values the sacred ingredient injects into
the captured helpers (`fold`, `molecule`, `num_heavy_atoms`, `cutoff`,
`api_key`). -/
structure DatasetConfig where
  fold : String
  molecule : String
  numHeavyAtoms : Nat
  cutoff : String
  apiKey : String

/-- Outcome of a successful `get_dataset` call: the constructed dataset and
the `ext_xyz_to_db(dbpath=..., xyzpath=...)` calls performed on the way. -/
structure GetDatasetResult where
  dataset : Dataset
  conversions : List (String × String)
  deriving DecidableEq

/-- `get_dataset(dbpath, dataset, dataset_properties)`: uppercase the tag,
dispatch on it; for `CUSTOM`, split the extension of `dbpath` and open the
`.db` directly, convert a `.xyz` first, or raise `NotImplementedError`. -/
def getDataset (cfg : DatasetConfig) (dbpath : String) (dataset : String)
    (dataset_properties : Option (List String)) :
    Except DatasetError GetDatasetResult :=
  let ds := pyUpper dataset
  if ds = "QM9" then
    .ok ⟨.qm9 dbpath dataset_properties, []⟩
  else if ds = "ISO17" then
    .ok ⟨.iso17 dbpath cfg.fold dataset_properties, []⟩
  else if ds = "ANI1" then
    .ok ⟨.ani1 dbpath cfg.numHeavyAtoms dataset_properties, []⟩
  else if ds = "MD17" then
    .ok ⟨.md17 dbpath cfg.molecule dataset_properties, []⟩
  else if ds = "MATPROJ" then
    .ok ⟨.materialsProject dbpath cfg.cutoff cfg.apiKey dataset_properties, []⟩
  else if ds = "CUSTOM" then
    let fe := splitext dbpath
    if fe.2 = ".db" then
      .ok ⟨.atomsData dbpath dataset_properties, []⟩
    else if fe.2 = ".xyz" then
      .ok ⟨.atomsData (fe.1 ++ ".db") dataset_properties, [(fe.1 ++ ".db", dbpath)]⟩
    else
      .error .notImplementedError
  else
    .error .notImplementedError

example : getDataset ⟨"reference", "aspirin", 2, "5.0", ""⟩ "foo.xyz" "custom" none =
    .ok ⟨.atomsData "foo.db" none, [("foo.db", "foo.xyz")]⟩ := rfl

example : getDataset ⟨"reference", "aspirin", 2, "5.0", ""⟩ "foo.db" "CUSTOM" none =
    .ok ⟨.atomsData "foo.db" none, []⟩ := rfl

example : getDataset ⟨"reference", "aspirin", 2, "5.0", ""⟩ "foo.bin" "CUSTOM" none =
    .error .notImplementedError := rfl

example : getDataset ⟨"reference", "aspirin", 2, "5.0", ""⟩ "q.db" "qm9" (some ["energy"]) =
    .ok ⟨.qm9 "q.db" (some ["energy"]), []⟩ := rfl

example : getDataset ⟨"reference", "aspirin", 2, "5.0", ""⟩ "q.db" "FOOBAR" none =
    .error .notImplementedError := rfl

example : getDataset ⟨"reference", "aspirin", 2, "5.0", ""⟩ "d" "iso17" none =
    .ok ⟨.iso17 "d" "reference" none, []⟩ := rfl

theorem dictLookup_dictInsert (m : List (String × String)) (k v key : String) :
    dictLookup (dictInsert m k v) key =
      if k = key then some v else dictLookup m key := by
  induction m with
  | nil =>
    simp only [dictInsert, dictLookup]
  | cons ab rest ih =>
    obtain ⟨a, b⟩ := ab
    by_cases hak : a = k
    · subst hak
      simp only [dictInsert, if_pos rfl, dictLookup]
      by_cases hk : a = key
      · subst hk
        simp
      · simp [hk]
    · simp only [dictInsert, if_neg hak, dictLookup, ih]
      by_cases hk : a = key
      · subst hk
        have : ¬ k = a := fun h => hak h.symm
        simp [this]
      · simp [hk]

theorem splitOnChar_ne_nil (c : Char) (l : List Char) : splitOnChar c l ≠ [] := by
  induction l with
  | nil => simp [splitOnChar]
  | cons x xs ih =>
    simp only [splitOnChar]
    split
    · simp
    · cases h : splitOnChar c xs with
      | nil => exact absurd h ih
      | cons y ys => simp

theorem splitOnChar_length (c : Char) (l : List Char) :
    (splitOnChar c l).length = l.count c + 1 := by
  induction l with
  | nil => simp [splitOnChar]
  | cons x xs ih =>
    simp only [splitOnChar]
    by_cases hx : x = c
    · subst hx
      simp [List.count_cons, ih]
    · cases h : splitOnChar c xs with
      | nil => exact absurd h (splitOnChar_ne_nil c xs)
      | cons y ys =>
        rw [if_neg hx]
        have := ih
        rw [h] at this
        simp only [List.length_cons] at this ⊢
        simp [List.count_cons, hx, ← this]

theorem pyUpperChar_idem (c : Char) : pyUpperChar (pyUpperChar c) = pyUpperChar c := by
  have key : ∀ p ∈ upperPairs, pyUpperChar p.2 = p.2 := by decide
  cases hfind : upperPairs.find? (fun p => p.1 == c) with
  | none =>
    have hc : pyUpperChar c = c := by
      unfold pyUpperChar
      rw [hfind]
    rw [hc]
    exact hc
  | some p =>
    have hmem : p ∈ upperPairs := List.mem_of_find?_eq_some hfind
    have hc : pyUpperChar c = p.2 := by
      unfold pyUpperChar
      rw [hfind]
    rw [hc]
    exact key p hmem

theorem pyUpper_idem (s : String) : pyUpper (pyUpper s) = pyUpper s := by
  unfold pyUpper
  congr 1
  induction s.data with
  | nil => rfl
  | cons x xs ih => simp [pyUpperChar_idem, ih]

theorem string_append_empty (s : String) : s ++ "" = s := by
  obtain ⟨l⟩ := s
  show String.mk (l ++ []) = String.mk l
  rw [List.append_nil]

theorem splitext_append (p : String) : (splitext p).1 ++ (splitext p).2 = p := by
  unfold splitext
  cases hd : rfindChar '.' p.data with
  | none =>
    show p ++ "" = p
    exact string_append_empty p
  | some d =>
    simp only
    split
    · show String.mk (p.data.take d) ++ String.mk (p.data.drop d) = p
      have h1 : String.mk (p.data.take d) ++ String.mk (p.data.drop d) =
          String.mk (p.data.take d ++ p.data.drop d) := rfl
      rw [h1, List.take_append_drop]
    · show p ++ "" = p
      exact string_append_empty p

theorem buildPropertyMap_ok (d : String) (ps : List String) (pm : List (String × String)) :
    ∀ acc, (∀ p ∈ ps, (dictLookup pm p).isSome) →
      (∀ k, (dictLookup acc k).isSome → dictLookup acc k = dictLookup pm k) →
      ∃ r, buildPropertyMap d ps pm acc = .ok r ∧
        (∀ k, (dictLookup r k).isSome ↔ ((dictLookup acc k).isSome ∨ k ∈ ps)) ∧
        (∀ k, (dictLookup r k).isSome → dictLookup r k = dictLookup pm k) := by
  induction ps with
  | nil =>
    intro acc _ hacc
    exact ⟨acc, rfl, fun k => by simp, hacc⟩
  | cons p ps ih =>
    intro acc hps hacc
    have hp : (dictLookup pm p).isSome := hps p (List.mem_cons_self p ps)
    obtain ⟨v, hv⟩ := Option.isSome_iff_exists.mp hp
    have hstep : buildPropertyMap d (p :: ps) pm acc =
        buildPropertyMap d ps pm (dictInsert acc p v) := by
      simp only [buildPropertyMap, hv]
    have hacc' : ∀ k, (dictLookup (dictInsert acc p v) k).isSome →
        dictLookup (dictInsert acc p v) k = dictLookup pm k := by
      intro k hk
      rw [dictLookup_dictInsert] at hk ⊢
      by_cases hpk : p = k
      · subst hpk
        simp only [if_pos rfl]
        exact hv.symm
      · rw [if_neg hpk] at hk ⊢
        exact hacc k hk
    obtain ⟨r, hr, hkeys, hvals⟩ :=
      ih (dictInsert acc p v) (fun q hq => hps q (List.mem_cons_of_mem p hq)) hacc'
    refine ⟨r, hstep.trans hr, ?_, hvals⟩
    intro k
    rw [hkeys k, dictLookup_dictInsert]
    by_cases hpk : p = k
    · subst hpk
      simp
    · rw [if_neg hpk]
      have hkp : ¬ k = p := fun h => hpk h.symm
      simp [List.mem_cons, hkp]

theorem buildPropertyMap_err (d : String) (pm : List (String × String)) (p : String)
    (hp : dictLookup pm p = none) :
    ∀ P1 P2 acc, (∀ q ∈ P1, (dictLookup pm q).isSome) →
      buildPropertyMap d (P1 ++ p :: P2) pm acc =
        .error (.atomsDataError (missingPropertyMessage p d)) := by
  intro P1
  induction P1 with
  | nil =>
    intro P2 acc _
    simp only [List.nil_append, buildPropertyMap, hp]
  | cons q P1 ih =>
    intro P2 acc hq
    have hqs : (dictLookup pm q).isSome := hq q (List.mem_cons_self q P1)
    obtain ⟨v, hv⟩ := Option.isSome_iff_exists.mp hqs
    simp only [List.cons_append, buildPropertyMap, hv]
    exact ih P2 (dictInsert acc q v) (fun r hr => hq r (List.mem_cons_of_mem q hr))

theorem exists_first_missing (pm : List (String × String)) (ps : List String) :
    (∃ p ∈ ps, dictLookup pm p = none) →
      ∃ P1 p P2, ps = P1 ++ p :: P2 ∧ (∀ q ∈ P1, (dictLookup pm q).isSome) ∧
        dictLookup pm p = none := by
  induction ps with
  | nil =>
    rintro ⟨p, hp, _⟩
    exact absurd hp (List.not_mem_nil p)
  | cons a ps ih =>
    rintro ⟨p, hp, hnone⟩
    by_cases ha : dictLookup pm a = none
    · exact ⟨[], a, ps, rfl, by simp, ha⟩
    · have hps : p ∈ ps := by
        rcases List.mem_cons.mp hp with rfl | h
        · exact absurd hnone ha
        · exact h
      obtain ⟨P1, p', P2, heq, hall, hn⟩ := ih ⟨p, hps, hnone⟩
      refine ⟨a :: P1, p', P2, by rw [heq]; rfl, ?_, hn⟩
      intro q hq
      rcases List.mem_cons.mp hq with rfl | h
      · exact Option.ne_none_iff_isSome.mp ha
      · exact hall q h

theorem parseEntries_error (es : List (List Char)) :
    (∃ e ∈ es, (splitOnChar ':' e).length ≠ 2) →
      ∀ acc, parseEntries es acc = .error .valueError := by
  induction es with
  | nil =>
    rintro ⟨e, he, _⟩ acc
    exact absurd he (List.not_mem_nil e)
  | cons e es ih =>
    intro h acc
    cases hse : splitOnChar ':' e with
    | nil => simp only [parseEntries, hse]
    | cons a tl =>
      cases tl with
      | nil => simp only [parseEntries, hse]
      | cons b tl2 =>
        cases tl2 with
        | nil =>
          simp only [parseEntries, hse]
          rcases h with ⟨e', he', hbad⟩
          rcases List.mem_cons.mp he' with rfl | hmem
          · rw [hse] at hbad
            simp at hbad
          · exact ih ⟨e', hmem, hbad⟩ _
        | cons cc tl3 => simp only [parseEntries, hse]

theorem parseEntries_ok (es : List (List Char)) :
    (∀ e ∈ es, (splitOnChar ':' e).length = 2) →
      ∀ acc, ∃ m, parseEntries es acc = .ok m := by
  induction es with
  | nil =>
    intro _ acc
    exact ⟨acc, rfl⟩
  | cons e es ih =>
    intro h acc
    have h2 : (splitOnChar ':' e).length = 2 := h e (List.mem_cons_self e es)
    cases hse : splitOnChar ':' e with
    | nil =>
      rw [hse] at h2
      simp at h2
    | cons a tl =>
      cases tl with
      | nil =>
        rw [hse] at h2
        simp at h2
      | cons b tl2 =>
        cases tl2 with
        | nil =>
          simp only [parseEntries, hse]
          exact ih (fun e' he' => h e' (List.mem_cons_of_mem e he')) _
        | cons cc tl3 =>
          rw [hse] at h2
          simp at h2

theorem string_data_append (s t : String) : (s ++ t).data = s.data ++ t.data := by
  obtain ⟨l⟩ := s
  obtain ⟨m⟩ := t
  rfl

/-- C1: for a dict-form mapping `M`, `get_property_map(P, M, dbpath)` succeeds
with a mapping whose key set equals the set of elements of `P`, each key `p`
mapped to `M[p]`, whenever every element of `P` is a key of `M`; it fails
whenever some element of `P` is not a key of `M`. -/
theorem getPropertyMap_dict_correct (P : List String) (M : List (String × String))
    (dbpath : String) :
    ((∀ p ∈ P, (dictLookup M p).isSome) →
      ∃ r, getPropertyMap P (.dict M) dbpath = .ok r ∧
        (∀ p ∈ P, dictLookup r p = dictLookup M p) ∧
        (∀ k, (dictLookup r k).isSome ↔ k ∈ P)) ∧
    ((∃ p ∈ P, dictLookup M p = none) →
      ∃ e, getPropertyMap P (.dict M) dbpath = .error e) := by
  constructor
  · intro h
    obtain ⟨r, hr, hkeys, hvals⟩ :=
      buildPropertyMap_ok dbpath P M [] h (fun k hk => by simp [dictLookup] at hk)
    refine ⟨r, hr, ?_, ?_⟩
    · intro p hp
      have hsome : (dictLookup r p).isSome := by
        rw [hkeys p]
        exact Or.inr hp
      exact hvals p hsome
    · intro k
      rw [hkeys k]
      simp [dictLookup]
  · intro h
    obtain ⟨P1, p, P2, heq, hall, hn⟩ := exists_first_missing M P h
    rw [heq]
    exact ⟨_, buildPropertyMap_err dbpath M p hn P1 P2 [] hall⟩

theorem getPropertyMap_dict_correct_witness :
    (∃ r, getPropertyMap ["energy"] (.dict [("energy", "E")]) "p.db" = .ok r ∧
      (∀ p ∈ ["energy"], dictLookup r p = dictLookup [("energy", "E")] p) ∧
      (∀ k, (dictLookup r k).isSome ↔ k ∈ ["energy"])) ∧
    (∃ e, getPropertyMap ["forces"] (.dict [("energy", "E")]) "p.db" = .error e) :=
  ⟨(getPropertyMap_dict_correct ["energy"] [("energy", "E")] "p.db").1 (by decide),
   (getPropertyMap_dict_correct ["forces"] [("energy", "E")] "p.db").2
     ⟨"forces", by decide, by decide⟩⟩

/-- C6: when some requested property is missing from a dict-form mapping,
`get_property_map` raises the domain-specific `AtomsDataError` (not the
generic `ValueError`) for the first missing property in list order, and its
message contains both that property and the database path. -/
theorem getPropertyMap_missing_property_error (P1 : List String) (p : String)
    (P2 : List String) (M : List (String × String)) (dbpath : String)
    (hall : ∀ q ∈ P1, (dictLookup M q).isSome) (hp : dictLookup M p = none) :
    getPropertyMap (P1 ++ p :: P2) (.dict M) dbpath =
      .error (.atomsDataError (missingPropertyMessage p dbpath)) ∧
    (∃ a b : List Char, (missingPropertyMessage p dbpath).data = a ++ p.data ++ b) ∧
    (∃ a b : List Char, (missingPropertyMessage p dbpath).data = a ++ dbpath.data ++ b) := by
  refine ⟨buildPropertyMap_err dbpath M p hp P1 P2 [] hall, ?_, ?_⟩
  · exact ⟨"\"".data,
      ("\" is not a valid property that is contained in the property_mapping for the database located ad " ++ dbpath ++ ".").data,
      by simp [missingPropertyMessage, string_data_append, List.append_assoc]⟩
  · exact ⟨("\"" ++ p ++ "\" is not a valid property that is contained in the property_mapping for the database located ad ").data,
      ".".data,
      by simp [missingPropertyMessage, string_data_append, List.append_assoc]⟩

theorem getPropertyMap_missing_property_error_witness :
    getPropertyMap ["forces"] (.dict [("energy", "E")]) "w.db" =
      .error (.atomsDataError (missingPropertyMessage "forces" "w.db")) ∧
    (∃ a b : List Char,
      (missingPropertyMessage "forces" "w.db").data = a ++ "forces".data ++ b) ∧
    (∃ a b : List Char,
      (missingPropertyMessage "forces" "w.db").data = a ++ "w.db".data ++ b) :=
  getPropertyMap_missing_property_error [] "forces" [] [("energy", "E")] "w.db"
    (by decide) (by decide)

/-- C2 counterexample: the string form is split on every colon, not on the
first colon only, so the entry `energy:col:0` does not parse to the pair
`("energy", "col:0")`; it raises the unpacking `ValueError` instead. -/
theorem getPropertyMap_first_colon_cex :
    getPropertyMap ["energy"] (.str "energy:col:0") "p.db" ≠
      .ok [("energy", "col:0")] ∧
    getPropertyMap ["energy"] (.str "energy:col:0") "p.db" = .error .valueError := by
  constructor
  · intro h
    rw [show getPropertyMap ["energy"] (PropertyMapping.str "energy:col:0") "p.db" =
        .error .valueError from rfl] at h
    exact Except.noConfusion h
  · rfl

/-- C2 amended: `get_property_map` parses a string-form mapping by splitting
on commas and then on every colon, requiring exactly two parts per entry, so
`"energy:E,forces:F"` parses to `{"energy": "E", "forces": "F"}` while an
entry whose value itself contains a colon, such as `"energy:col:0"`, fails
with the generic unpacking error. -/
theorem getPropertyMap_string_parse_amended (P : List String) (dbpath : String) :
    getPropertyMap P (.str "energy:E,forces:F") dbpath =
      getPropertyMap P (.dict [("energy", "E"), ("forces", "F")]) dbpath ∧
    getPropertyMap P (.str "energy:col:0") dbpath = .error .valueError :=
  ⟨rfl, rfl⟩

/-- C10: on string-form mappings the parse step is total exactly on strings
whose comma-separated entries each contain exactly one colon; any entry with
no colon or with two or more colons makes `get_property_map` fail with the
generic unpacking `ValueError`, independently of the requested properties. -/
theorem getPropertyMap_string_totality (s : String) :
    ((∃ e ∈ splitOnChar ',' s.data, e.count ':' ≠ 1) →
      ∀ P dbpath, getPropertyMap P (.str s) dbpath = .error .valueError) ∧
    ((∀ e ∈ splitOnChar ',' s.data, e.count ':' = 1) →
      ∃ m, parseMapping s = .ok m) := by
  constructor
  · rintro ⟨e, he, hc⟩ P dbpath
    have hlen : (splitOnChar ':' e).length ≠ 2 := by
      rw [splitOnChar_length]
      omega
    have herr : parseMapping s = .error .valueError :=
      parseEntries_error (splitOnChar ',' s.data) ⟨e, he, hlen⟩ []
    simp only [getPropertyMap, herr]
  · intro h
    exact parseEntries_ok (splitOnChar ',' s.data)
      (fun e he => by rw [splitOnChar_length, h e he]) []

theorem getPropertyMap_string_totality_witness :
    getPropertyMap ["energy"] (.str "energy:col:0,forces") "w.db" =
      .error .valueError :=
  ((getPropertyMap_string_totality "energy:col:0,forces").1 (by decide))
    ["energy"] "w.db"

theorem getDataset_custom (cfg : DatasetConfig) (dbpath : String)
    (props : Option (List String)) :
    getDataset cfg dbpath "CUSTOM" props =
      if (splitext dbpath).2 = ".db" then
        .ok ⟨.atomsData dbpath props, []⟩
      else if (splitext dbpath).2 = ".xyz" then
        .ok ⟨.atomsData ((splitext dbpath).1 ++ ".db") props,
             [((splitext dbpath).1 ++ ".db", dbpath)]⟩
      else .error .notImplementedError := rfl

/-- C3: with tag `CUSTOM`, a `.xyz` path is first converted to the same path
with extension `.db` (one `ext_xyz_to_db` call) and that `.db` path is
opened; a `.db` path is opened directly with no conversion. -/
theorem getDataset_custom_extensions (cfg : DatasetConfig) (dbpath : String)
    (props : Option (List String)) :
    ((splitext dbpath).2 = ".xyz" →
      dbpath = (splitext dbpath).1 ++ ".xyz" ∧
      getDataset cfg dbpath "CUSTOM" props =
        .ok ⟨.atomsData ((splitext dbpath).1 ++ ".db") props,
             [((splitext dbpath).1 ++ ".db", dbpath)]⟩) ∧
    ((splitext dbpath).2 = ".db" →
      getDataset cfg dbpath "CUSTOM" props =
        .ok ⟨.atomsData dbpath props, []⟩) := by
  constructor
  · intro h
    constructor
    · conv_lhs => rw [← splitext_append dbpath]
      rw [h]
    · rw [getDataset_custom, h, if_neg (by decide), if_pos rfl]
  · intro h
    rw [getDataset_custom, h, if_pos rfl]

theorem getDataset_custom_extensions_witness :
    (("foo.xyz" : String) = (splitext "foo.xyz").1 ++ ".xyz" ∧
      getDataset ⟨"reference", "aspirin", 2, "5.0", ""⟩ "foo.xyz" "CUSTOM" none =
        .ok ⟨.atomsData ((splitext "foo.xyz").1 ++ ".db") none,
             [((splitext "foo.xyz").1 ++ ".db", "foo.xyz")]⟩) ∧
    getDataset ⟨"reference", "aspirin", 2, "5.0", ""⟩ "bar.db" "CUSTOM" none =
      .ok ⟨.atomsData "bar.db" none, []⟩ :=
  ⟨(getDataset_custom_extensions ⟨"reference", "aspirin", 2, "5.0", ""⟩
      "foo.xyz" none).1 rfl,
   (getDataset_custom_extensions ⟨"reference", "aspirin", 2, "5.0", ""⟩
      "bar.db" none).2 rfl⟩

/-- C4: with tag `CUSTOM` and an extension that is neither `.db` nor `.xyz`,
`get_dataset` raises `NotImplementedError`; the failure returns no dataset
and records no conversion, so no file is written. -/
theorem getDataset_custom_unsupported_extension (cfg : DatasetConfig)
    (dbpath : String) (props : Option (List String))
    (h1 : (splitext dbpath).2 ≠ ".db") (h2 : (splitext dbpath).2 ≠ ".xyz") :
    getDataset cfg dbpath "CUSTOM" props = .error .notImplementedError := by
  rw [getDataset_custom, if_neg h1, if_neg h2]

theorem getDataset_custom_unsupported_extension_witness :
    getDataset ⟨"reference", "aspirin", 2, "5.0", ""⟩ "foo.bin" "CUSTOM" none =
      .error .notImplementedError :=
  getDataset_custom_unsupported_extension ⟨"reference", "aspirin", 2, "5.0", ""⟩
    "foo.bin" none (by decide) (by decide)

/-- C5: a dataset tag whose uppercased form is none of `QM9`, `ISO17`,
`ANI1`, `MD17`, `MATPROJ`, `CUSTOM` makes `get_dataset` raise
`NotImplementedError` and return no dataset. -/
theorem getDataset_unknown_tag (cfg : DatasetConfig) (dbpath : String)
    (t : String) (props : Option (List String))
    (h : pyUpper t ∉
      (["QM9", "ISO17", "ANI1", "MD17", "MATPROJ", "CUSTOM"] : List String)) :
    getDataset cfg dbpath t props = .error .notImplementedError := by
  simp only [List.mem_cons, List.not_mem_nil, or_false, not_or] at h
  obtain ⟨h1, h2, h3, h4, h5, h6⟩ := h
  simp only [getDataset]
  rw [if_neg h1, if_neg h2, if_neg h3, if_neg h4, if_neg h5, if_neg h6]

theorem getDataset_unknown_tag_witness :
    getDataset ⟨"reference", "aspirin", 2, "5.0", ""⟩ "q.db" "FOOBAR" none =
      .error .notImplementedError :=
  getDataset_unknown_tag ⟨"reference", "aspirin", 2, "5.0", ""⟩ "q.db" "FOOBAR"
    none (by decide)

/-- C7: with tag `QM9`, the constructed dataset is a `QM9` built from exactly
the given path and property list; the result does not depend on any of the
kind-specific configuration values (`fold`, `molecule`, `num_heavy_atoms`,
`cutoff`, `api_key`), and no conversion is performed. -/
theorem getDataset_qm9_only_path_and_properties (cfg : DatasetConfig)
    (dbpath : String) (props : Option (List String)) :
    getDataset cfg dbpath "QM9" props = .ok ⟨.qm9 dbpath props, []⟩ := rfl

/-- C8: dispatch is invariant under the case of the dataset tag: any tag
behaves identically to its uppercased form. -/
theorem getDataset_tag_case_insensitive (cfg : DatasetConfig) (dbpath : String)
    (t : String) (props : Option (List String)) :
    getDataset cfg dbpath t props = getDataset cfg dbpath (pyUpper t) props := by
  simp only [getDataset, pyUpper_idem]

/-- C9: extension matching in the `CUSTOM` branch is case-sensitive: a path
whose extension is a case variant of `.db` or `.xyz` (lowercasing to one of
them) but not exactly equal to it is rejected with `NotImplementedError`
instead of being opened or converted. -/
theorem getDataset_extension_case_sensitive (cfg : DatasetConfig)
    (dbpath : String) (props : Option (List String))
    (_hvar : pyLower (splitext dbpath).2 = ".db" ∨
      pyLower (splitext dbpath).2 = ".xyz")
    (h1 : (splitext dbpath).2 ≠ ".db") (h2 : (splitext dbpath).2 ≠ ".xyz") :
    getDataset cfg dbpath "CUSTOM" props = .error .notImplementedError := by
  rw [getDataset_custom, if_neg h1, if_neg h2]

theorem getDataset_extension_case_sensitive_witness :
    getDataset ⟨"reference", "aspirin", 2, "5.0", ""⟩ "foo.DB" "CUSTOM" none =
      .error .notImplementedError ∧
    getDataset ⟨"reference", "aspirin", 2, "5.0", ""⟩ "foo.XYZ" "CUSTOM" none =
      .error .notImplementedError :=
  ⟨getDataset_extension_case_sensitive ⟨"reference", "aspirin", 2, "5.0", ""⟩
      "foo.DB" none (Or.inl (by decide)) (by decide) (by decide),
   getDataset_extension_case_sensitive ⟨"reference", "aspirin", 2, "5.0", ""⟩
      "foo.XYZ" none (Or.inr (by decide)) (by decide) (by decide)⟩

end DatasetIngredients
